import Mathlib

/-!
Verification of the Basher repository: the command-execution core
(`BashCommand.cmd`, emulate mode, verbosity, the if/elif/else conditional
helper), the shell-quoting utility, and the system operations `cd` and
`install`.

The package sources under `basher/` delegate to a core class `BashCommand`
(module `basher/core.py`, re-exported through `basher/basher.py`).  That
module is not part of the sources available here, only its callers
(`system_ops.py`, `supervisord.py`), its protocol declaration
(`executor.py`) and its tests; the executor core below is therefore
modelled from the specification, as flagged in the individual doc
comments.  `shell_utils.py`, `system_ops.py` and `install.py` are present
and are embedded directly.
-/

namespace Basher

/-- Result payload of a `cmd` call: either the raw exit status (no capture)
or the captured standard output. -/
inductive CmdPayload where
  | status (code : Int)
  | output (text : String)
deriving DecidableEq, Repr

/-- Errors `cmd` can raise when assert-mode (`check`) is requested. -/
inductive CmdError where
  | launchFailure (msg : String)
  | nonZeroExit (code : Int) (out : String)
deriving DecidableEq, Repr

/-- Outcome of handing one command line to the process-launch mechanism
(`subprocess.run`): either it raises an exception carrying a message, or it
completes with an exit code and captured standard output. -/
structure LaunchOutcome where
  raises : Bool
  excMsg : String
  exitCode : Int
  stdout : String
deriving DecidableEq, Repr

/-- Arguments of one `cmd` invocation: the command text, the
capture-output flag, the optional working-directory override and the
assert-success (`check`) flag. -/
structure CmdCall where
  command : String
  captureOutput : Bool
  cwd : Option String
  check : Bool
deriving DecidableEq, Repr

/-- Observable side effects of one `cmd` invocation: the command lines
handed to the process-launch mechanism and the `os.chdir` calls made, in
order. -/
structure CmdEffects where
  launches : List String
  chdirs : List String
deriving DecidableEq, Repr

/-- Process-wide executor state: the emulate (dry-run) flag and the
verbosity level. -/
structure ExecutorState where
  emulate : Bool
  verbosity : Int
deriving DecidableEq, Repr

/-- Modelled from the spec: `set_emulate` of the missing core module
`basher/core.py` — sets the executor's dry-run flag. -/
def set_emulate (b : Bool) (st : ExecutorState) : ExecutorState :=
  { st with emulate := b }

/-- Modelled from the spec: `set_verbosity` of the missing core module
`basher/core.py` — stores the level as given, with no clamping or
validation. -/
def set_verbosity (n : Int) (st : ExecutorState) : ExecutorState :=
  { st with verbosity := n }

/-- Modelled from the spec: `get_verbosity` of the missing core module
`basher/core.py` — reads back the stored level. -/
def get_verbosity (st : ExecutorState) : Int :=
  st.verbosity

/-- From `src/install.py` (`main`): `verbosity_level = min(args.verbose, 3)`
— the clamp applied at the CLI-argument-parsing layer. -/
def cliVerbosityLevel (argsVerbose : Int) : Int :=
  min argsVerbose 3

/-- Modelled from the spec: the trailing-newline trim applied to captured
output by the missing core module `basher/core.py` — "trimmed of a single
trailing newline, if present" (spec section 4.1 rule 3). -/
def trimTrailingNewline (s : String) : String :=
  if s.data.getLast? = some '\n' then String.mk s.data.dropLast else s

/-- Modelled from the spec: `BashCommand.cmd` of the missing core module
`basher/core.py` (spec section 4.1 rules 1, 2, 3 and 6).  If the emulate
flag is set, nothing is launched and a synthetic success is returned.
Otherwise the working-directory override (if any) is entered, the command
is launched, and the prior directory is restored afterwards in a
finally-style block, so the restore chdir appears in the effect trace
regardless of the launch's outcome.  A launch exception is converted to a
result unless assert-mode (`check`) requests propagation; captured output
is trimmed of a single trailing newline. -/
def cmdRun (launch : String → LaunchOutcome) (st : ExecutorState) (call : CmdCall)
    (processCwd : String) : Except CmdError CmdPayload × String × CmdEffects :=
  if st.emulate then
    (Except.ok (if call.captureOutput then CmdPayload.output "" else CmdPayload.status 0),
     processCwd, ⟨[], []⟩)
  else
    let o := launch call.command
    let payload : Except CmdError CmdPayload :=
      if o.raises then
        if call.check then Except.error (CmdError.launchFailure o.excMsg)
        else if call.captureOutput then
          Except.ok (CmdPayload.output ("Exception: " ++ o.excMsg))
        else Except.ok (CmdPayload.status 1)
      else if call.check ∧ o.exitCode ≠ 0 then
        Except.error (CmdError.nonZeroExit o.exitCode o.stdout)
      else if call.captureOutput then
        Except.ok (CmdPayload.output (trimTrailingNewline o.stdout))
      else Except.ok (CmdPayload.status o.exitCode)
    let chdirs : List String :=
      match call.cwd with
      | none => []
      | some d => [d, processCwd]
    (payload, processCwd, ⟨[call.command], chdirs⟩)

/-- State of the conditional-execution helper's chain (spec section 4.3):
no chain open, a chain open with no branch matched yet, or a chain open
with some branch already matched. -/
inductive ChainState where
  | noChain
  | openUnmatched
  | openMatched
deriving DecidableEq, Repr

/-- The state error raised when `elif_condition` or `else_condition` is
called with no open chain. -/
inductive StateError where
  | noOpenChain
deriving DecidableEq, Repr

/-- Modelled from the spec: `if_condition` of the missing core module
`basher/core.py` — evaluates the condition through the executor and opens
a fresh chain, matched when the condition held.  Returns the boolean and
the list of condition expressions it evaluated. -/
def if_condition (evalCond : String → Bool) (expr : String) (_st : ChainState) :
    Bool × ChainState × List String :=
  let b := evalCond expr
  (b, if b then ChainState.openMatched else ChainState.openUnmatched, [expr])

/-- Modelled from the spec: `elif_condition` of the missing core module
`basher/core.py` — a state error with no open chain; false without
evaluating the condition once the chain has matched (the returned trace of
evaluated expressions is empty); otherwise evaluates the condition exactly
like `if_condition`. -/
def elif_condition (evalCond : String → Bool) (expr : String) (st : ChainState) :
    Except StateError (Bool × ChainState × List String) :=
  match st with
  | ChainState.noChain => Except.error StateError.noOpenChain
  | ChainState.openMatched => Except.ok (false, ChainState.openMatched, [])
  | ChainState.openUnmatched =>
      let b := evalCond expr
      Except.ok (b, if b then ChainState.openMatched else ChainState.openUnmatched, [expr])

/-- Modelled from the spec: `else_condition` of the missing core module
`basher/core.py` — a state error with no open chain; true (and the chain
becomes matched) only when no branch matched before; false otherwise. -/
def else_condition (st : ChainState) : Except StateError (Bool × ChainState) :=
  match st with
  | ChainState.noChain => Except.error StateError.noOpenChain
  | ChainState.openMatched => Except.ok (false, ChainState.openMatched)
  | ChainState.openUnmatched => Except.ok (true, ChainState.openMatched)

/-- Modelled from the spec: `ifend` of the missing core module
`basher/core.py` — unconditionally discards the chain state. -/
def ifend (_st : ChainState) : ChainState :=
  ChainState.noChain

/-- Runs a list of `elif_condition` calls in sequence from a given chain
state, collecting the booleans they return and the condition expressions
they actually evaluated. -/
def runElifs (evalCond : String → Bool) : List String → ChainState →
    List Bool × ChainState × List String
  | [], st => ([], st, [])
  | e :: rest, st =>
      match elif_condition evalCond e st with
      | Except.error _ => ([], st, [])
      | Except.ok (b, st2, tr) =>
          let r := runElifs evalCond rest st2
          (b :: r.1, r.2.1, tr ++ r.2.2)

/-- A whole if/elif chain: `if_condition` on the first expression, then
`elif_condition` on each of the rest.  Returns the booleans returned by
the branches, the final chain state and the expressions evaluated. -/
def runChain (evalCond : String → Bool) (first : String) (rest : List String) :
    List Bool × ChainState × List String :=
  let r0 := if_condition evalCond first ChainState.noChain
  let r := runElifs evalCond rest r0.2.1
  (r0.1 :: r.1, r.2.1, r0.2.2 ++ r.2.2)

/-- Abstract state of the system-operations component: the process's
actual working directory and the executor's `working_dir` field. -/
structure SysState where
  processCwd : String
  workingDir : String
deriving DecidableEq, Repr

/-- From `src/basher/system_ops.py` (`SystemOps.cd`): returns `False`
without touching anything when the path is not an existing directory;
otherwise calls `os.chdir(path)` and records the path in `working_dir`.
The filesystem is abstracted by the `isdir` predicate; `os.chdir` on an
existing directory is modelled as succeeding, so the `except` branch that
guards OS-level failures outside this abstraction is unreachable in the
model.  The third component lists the `os.chdir` calls made. -/
def cd (isdir : String → Bool) (st : SysState) (path : String) :
    Bool × SysState × List String :=
  if ¬ isdir path then (false, st, [])
  else (true, { processCwd := path, workingDir := path }, [path])

/-- From `src/basher/shell_utils.py` (`quote`, delegating to the Python
standard library function `shlex.quote`): a character the quoting step
leaves bare.  This is the complement of the `_find_unsafe` regex of
`shlex`, compiled with `re.ASCII`: ASCII letters, digits and underscore,
plus at-sign, percent, plus, equals, colon, comma, dot, slash, hyphen. -/
def isSafeChar (c : Char) : Bool :=
  c.isAlpha || c.isDigit || c == '_' || c == '@' || c == '%' || c == '+' ||
  c == '=' || c == ':' || c == ',' || c == '.' || c == '/' || c == '-'

/-- The per-character effect of the replace step inside `shlex.quote`: a
single quote becomes the five-character sequence quote, double-quote,
quote, double-quote, quote; every other character is kept. -/
def quoteEscChar (c : Char) : List Char :=
  if c = '\x27' then ['\x27', '"', '\x27', '"', '\x27'] else [c]

/-- From `src/basher/shell_utils.py` (`quote` via `shlex.quote`), on the
character list of the string: an empty string becomes two single quotes;
a string of safe characters only is returned unchanged; anything else is
wrapped in single quotes with embedded single quotes escaped. -/
def quoteData (s : List Char) : List Char :=
  if s = [] then ['\x27', '\x27']
  else if s.all isSafeChar then s
  else '\x27' :: (s.flatMap quoteEscChar ++ ['\x27'])

/-- From `src/basher/shell_utils.py`: `quote(value) = shlex.quote(value)`. -/
def quote (s : String) : String :=
  String.mk (quoteData s.data)

/-- Tokenizer mode during POSIX word recognition: outside quotes, inside
single quotes, inside double quotes, or just past a backslash (outside
quotes or inside double quotes). -/
inductive QMode where
  | normal
  | single
  | double
  | normalEsc
  | doubleEsc
deriving DecidableEq, Repr

/-- POSIX shell word-splitting (token recognition) over a character list:
blanks outside quotes separate words, single quotes protect everything up
to the closing quote, double quotes protect everything except `\x22`, `\`,
backquote and dollar, and a backslash escapes the next character.  Word
expansions themselves are out of scope (the inputs proved about contain no
unquoted dollar or backquote).  `none` reports an unterminated quote.  The
accumulator holds the current word reversed; the flag records whether a
word is in progress. -/
def posixSplitAux : List Char → QMode → List Char → Bool →
    Option (List (List Char))
  | [], QMode.normal, acc, inWord =>
      some (if inWord then [acc.reverse] else [])
  | [], QMode.normalEsc, acc, _ => some [('\\' :: acc).reverse]
  | [], QMode.single, _, _ => none
  | [], QMode.double, _, _ => none
  | [], QMode.doubleEsc, _, _ => none
  | c :: rest, QMode.normal, acc, inWord =>
      if c = ' ' ∨ c = '\t' ∨ c = '\n' then
        if inWord then
          (posixSplitAux rest QMode.normal [] false).map (fun ws => acc.reverse :: ws)
        else posixSplitAux rest QMode.normal [] false
      else if c = '\x27' then posixSplitAux rest QMode.single acc true
      else if c = '"' then posixSplitAux rest QMode.double acc true
      else if c = '\\' then posixSplitAux rest QMode.normalEsc acc inWord
      else posixSplitAux rest QMode.normal (c :: acc) true
  | c :: rest, QMode.normalEsc, acc, _ =>
      posixSplitAux rest QMode.normal (c :: acc) true
  | c :: rest, QMode.single, acc, _ =>
      if c = '\x27' then posixSplitAux rest QMode.normal acc true
      else posixSplitAux rest QMode.single (c :: acc) true
  | c :: rest, QMode.double, acc, _ =>
      if c = '"' then posixSplitAux rest QMode.normal acc true
      else if c = '\\' then posixSplitAux rest QMode.doubleEsc acc true
      else posixSplitAux rest QMode.double (c :: acc) true
  | c :: rest, QMode.doubleEsc, acc, _ =>
      if c = '"' ∨ c = '\\' ∨ c = '$' ∨ c = '\x60' then
        posixSplitAux rest QMode.double (c :: acc) true
      else posixSplitAux rest QMode.double (c :: '\\' :: acc) true

/-- POSIX word-splitting of a whole command-line string into its words. -/
def posixSplitFields (s : String) : Option (List String) :=
  (posixSplitAux s.data QMode.normal [] false).map (fun ws => ws.map String.mk)

/-- From `src/basher/system_ops.py` (`SystemOps.install`): the
already-installed check run for one package. -/
def grepInstalledCmd (p : String) : String :=
  "apt list --installed | grep -F " ++ quote p

/-- From `src/basher/system_ops.py` (`SystemOps.install`): the quoted,
space-joined package list. -/
def packagesStr (packages : List String) : String :=
  String.intercalate " " (packages.map quote)

/-- From `src/basher/system_ops.py` (`SystemOps.install`): the package
manager invocation for each supported manager. -/
def pmInstallCmd (pm : String) (packages : List String) : String :=
  if pm = "apt" then "sudo apt update && sudo apt install -y " ++ packagesStr packages
  else if pm = "yum" then "sudo yum install -y " ++ packagesStr packages
  else if pm = "dnf" then "sudo dnf install -y " ++ packagesStr packages
  else "sudo pacman -Sy --noconfirm " ++ packagesStr packages

/-- From `src/basher/system_ops.py` (`SystemOps.install`): the
`check_installed` loop — walks the package list and returns `True` at the
first package whose grep check reports exit status 0, never looking at the
rest.  Also returns the grep commands issued, in order. -/
def checkInstalledLoop (grepOk : String → Bool) : List String → Bool × List String
  | [] => (false, [])
  | p :: rest =>
      if grepOk p then (true, [grepInstalledCmd p])
      else
        let r := checkInstalledLoop grepOk rest
        (r.1, grepInstalledCmd p :: r.2)

/-- From `src/basher/system_ops.py` (`SystemOps.install`): empty input
succeeds at once; with `check_installed` the grep loop may return early;
otherwise the detected package manager (here a parameter, mirroring the
cached `detect_package_manager` result) installs the quoted package list,
and the call succeeds when `cmd` returned a non-`None` result.  The second
component lists the commands issued through `cmd`. -/
def install (grepOk : String → Bool) (pm : Option String)
    (runCmd : String → Option Int) (packages : List String)
    (check_installed : Bool) : Bool × List String :=
  if packages = [] then (true, [])
  else
    let pre := if check_installed then checkInstalledLoop grepOk packages else (false, [])
    if pre.1 then (true, pre.2)
    else
      match pm with
      | none => (false, pre.2)
      | some m =>
          if m = "apt" ∨ m = "yum" ∨ m = "dnf" ∨ m = "pacman" then
            ((runCmd (pmInstallCmd m packages)).isSome,
             pre.2 ++ [pmInstallCmd m packages])
          else (false, pre.2)

end Basher

namespace Basher

example :
    cmdRun (fun _ => ⟨false, "", 0, "output"⟩) ⟨false, 0⟩ ⟨"ls", true, none, false⟩ "/w" =
      (Except.ok (CmdPayload.output "output"), "/w", ⟨["ls"], []⟩) := rfl

example :
    cmdRun (fun _ => ⟨false, "", 0, "hello\n"⟩) ⟨false, 0⟩ ⟨"echo hello", true, none, false⟩ "/w" =
      (Except.ok (CmdPayload.output "hello"), "/w", ⟨["echo hello"], []⟩) := rfl

example :
    cmdRun (fun _ => ⟨true, "Failed", 0, ""⟩) ⟨false, 0⟩ ⟨"bad", true, none, false⟩ "/w" =
      (Except.ok (CmdPayload.output "Exception: Failed"), "/w", ⟨["bad"], []⟩) := rfl

example :
    cmdRun (fun _ => ⟨false, "", 0, ""⟩) ⟨true, 0⟩ ⟨"dangerous command", false, none, false⟩ "/w" =
      (Except.ok (CmdPayload.status 0), "/w", ⟨[], []⟩) := rfl

example :
    (cmdRun (fun _ => ⟨false, "", 1, ""⟩) ⟨false, 0⟩ ⟨"ls", false, some "/new", false⟩ "/old").2.2.chdirs
      = ["/new", "/old"] := rfl

end Basher

namespace Basher

example : quote "abc" = "abc" := rfl
example : quote "" = "\x27\x27" := rfl
example : quote "a b" = "\x27a b\x27" := rfl
example : quote "a\x27b" = "\x27a\x27\"\x27\"\x27b\x27" := rfl
example : posixSplitFields (quote "a b") = some ["a b"] := rfl
example : posixSplitFields (quote "a\x27b; rm -rf /") = some ["a\x27b; rm -rf /"] := rfl
example : posixSplitFields "a b  c" = some ["a", "b", "c"] := rfl
example : posixSplitFields (quote "") = some [""] := rfl

end Basher

namespace Basher

/-- C1: for every command string, when the executor's emulate flag is set
via `set_emulate(True)`, `cmd` does not invoke the process-launch
mechanism at all (the launch trace is empty) and returns a synthetic
success: status 0, and empty captured output when capture is requested. -/
theorem cmd_emulate_skips_execution (launch : String → LaunchOutcome)
    (st : ExecutorState) (call : CmdCall) (processCwd : String) :
    cmdRun launch (set_emulate true st) call processCwd =
      (Except.ok (if call.captureOutput then CmdPayload.output "" else CmdPayload.status 0),
       processCwd, ⟨[], []⟩) := by
  simp [cmdRun, set_emulate]

/-- C2: for every `cmd` call with a working-directory override, the
process's working directory after the call equals its value before the
call, whatever the launch outcome; when the command actually runs, the
chdir trace is exactly enter-then-restore. -/
theorem cmd_cwd_restored (launch : String → LaunchOutcome) (st : ExecutorState)
    (call : CmdCall) (processCwd d : String) (h : call.cwd = some d) :
    (cmdRun launch st call processCwd).2.1 = processCwd ∧
    (st.emulate = false →
      (cmdRun launch st call processCwd).2.2.chdirs = [d, processCwd]) := by
  unfold cmdRun
  by_cases he : st.emulate <;> simp [he, h]

/-- Witness for C2 at a failing command in directory-override mode. -/
theorem cmd_cwd_restored_witness :
    (cmdRun (fun _ => ⟨false, "", 1, ""⟩) ⟨false, 0⟩
        ⟨"ls", false, some "/new", false⟩ "/old").2.1 = "/old" ∧
    ((⟨false, 0⟩ : ExecutorState).emulate = false →
      (cmdRun (fun _ => ⟨false, "", 1, ""⟩) ⟨false, 0⟩
          ⟨"ls", false, some "/new", false⟩ "/old").2.2.chdirs = ["/new", "/old"]) :=
  cmd_cwd_restored (fun _ => ⟨false, "", 1, ""⟩) ⟨false, 0⟩
    ⟨"ls", false, some "/new", false⟩ "/old" "/new" rfl

/-- C4: calling `elif_condition` or `else_condition` when no chain is open
raises the state error in both cases. -/
theorem elif_else_without_if_raise (evalCond : String → Bool) (expr : String) :
    elif_condition evalCond expr ChainState.noChain =
        Except.error StateError.noOpenChain ∧
    else_condition ChainState.noChain = Except.error StateError.noOpenChain :=
  ⟨rfl, rfl⟩

/-- C5: outside assert-mode, an exception from the process-launch
mechanism is caught and converted to a result: with capture the payload
describes the failure, without capture the result is a failure status. -/
theorem cmd_launch_exception_converted (launch : String → LaunchOutcome)
    (st : ExecutorState) (call : CmdCall) (processCwd : String)
    (hem : st.emulate = false) (hraises : (launch call.command).raises = true)
    (hchk : call.check = false) :
    (cmdRun launch st call processCwd).1 =
      Except.ok (if call.captureOutput then
          CmdPayload.output ("Exception: " ++ (launch call.command).excMsg)
        else CmdPayload.status 1) := by
  simp only [cmdRun, hem, hraises, hchk, Bool.false_eq_true, if_false, if_true]
  by_cases hcap : call.captureOutput <;> simp [hcap]

/-- Witness for C5 at a command whose launch raises. -/
theorem cmd_launch_exception_converted_witness :
    (cmdRun (fun _ => ⟨true, "Failed", 0, ""⟩) ⟨false, 0⟩
        ⟨"bad", true, none, false⟩ "/w").1 =
      Except.ok (CmdPayload.output "Exception: Failed") :=
  cmd_launch_exception_converted (fun _ => ⟨true, "Failed", 0, ""⟩) ⟨false, 0⟩
    ⟨"bad", true, none, false⟩ "/w" rfl rfl rfl

/-- C7: `set_verbosity` stores exactly the given level with no clamping;
the clamp to at most 3 lives only in the CLI-argument layer of the
installer scripts. -/
theorem verbosity_setter_no_clamp (n : Int) (st : ExecutorState) :
    get_verbosity (set_verbosity n st) = n ∧
    (∀ v : Int, cliVerbosityLevel v ≤ 3) ∧
    (∀ v : Int, v ≤ 3 → cliVerbosityLevel v = v) :=
  ⟨rfl, fun _ => min_le_right _ _, fun _ hv => min_eq_left hv⟩

/-- Witness for C7 at level 7 (outside the 0 to 3 range). -/
theorem verbosity_setter_no_clamp_witness :
    get_verbosity (set_verbosity 7 ⟨false, 0⟩) = 7 ∧
    cliVerbosityLevel 7 = 3 ∧ cliVerbosityLevel 2 = 2 :=
  ⟨(verbosity_setter_no_clamp 7 ⟨false, 0⟩).1, by decide,
   (verbosity_setter_no_clamp 7 ⟨false, 0⟩).2.2 2 (by decide)⟩

/-- C9: `cd` on a path that is not an existing directory returns `False`
and leaves both the process directory and `working_dir` unchanged, with no
chdir call made; on an existing directory it changes the process directory
and sets `working_dir` to the path. -/
theorem cd_not_directory_unchanged (isdir : String → Bool) (st : SysState)
    (path : String) :
    (isdir path = false → cd isdir st path = (false, st, [])) ∧
    (isdir path = true →
      cd isdir st path = (true, { processCwd := path, workingDir := path }, [path])) := by
  constructor <;> intro h <;> simp [cd, h]

/-- Witness for C9 on a two-path filesystem. -/
theorem cd_not_directory_unchanged_witness :
    cd (fun p => p == "/tmp") ⟨"/home", "/home"⟩ "/file.txt" =
      (false, ⟨"/home", "/home"⟩, []) ∧
    cd (fun p => p == "/tmp") ⟨"/home", "/home"⟩ "/tmp" =
      (true, ⟨"/tmp", "/tmp"⟩, ["/tmp"]) :=
  ⟨(cd_not_directory_unchanged (fun p => p == "/tmp") ⟨"/home", "/home"⟩ "/file.txt").1
      (by decide),
   (cd_not_directory_unchanged (fun p => p == "/tmp") ⟨"/home", "/home"⟩ "/tmp").2
      (by decide)⟩

/-- C10: with `check_installed` set and the grep check succeeding for the
first package, `install` returns `True` at once, having issued only that
one grep — no package-manager command runs and later packages are never
examined. -/
theorem install_first_package_short_circuit (grepOk : String → Bool)
    (pm : Option String) (runCmd : String → Option Int) (p : String)
    (rest : List String) (h : grepOk p = true) :
    install grepOk pm runCmd (p :: rest) true = (true, [grepInstalledCmd p]) := by
  simp [install, checkInstalledLoop, h]

/-- Witness for C10 with two packages, the first already installed. -/
theorem install_first_package_short_circuit_witness :
    install (fun _ => true) (some "apt") (fun _ => some 0) ["curl", "git"] true =
      (true, [grepInstalledCmd "curl"]) :=
  install_first_package_short_circuit (fun _ => true) (some "apt")
    (fun _ => some 0) "curl" ["git"] rfl

end Basher

namespace Basher

/-- Any number of repetitions of `false` contains no `true`. -/
theorem count_true_replicate_false (n : Nat) :
    (List.replicate n false).count true = 0 := by
  induction n with
  | zero => rfl
  | succ k ih => simpa [List.replicate] using ih

/-- Running any number of `elif_condition` calls on a matched chain returns
false every time, keeps the chain matched and evaluates no condition. -/
theorem runElifs_matched (evalCond : String → Bool) (rest : List String) :
    runElifs evalCond rest ChainState.openMatched =
      (List.replicate rest.length false, ChainState.openMatched, []) := by
  induction rest with
  | nil => rfl
  | cons e rs ih => simp [runElifs, elif_condition, ih, List.replicate]

/-- From an unmatched open chain, a run of `elif_condition` calls returns
true at most once. -/
theorem runElifs_unmatched_count (evalCond : String → Bool) (rest : List String) :
    (runElifs evalCond rest ChainState.openUnmatched).1.count true ≤ 1 := by
  induction rest with
  | nil => simp [runElifs]
  | cons e rs ih =>
      by_cases hb : evalCond e = true
      · simp [runElifs, elif_condition, hb, runElifs_matched, count_true_replicate_false]
      · simp only [runElifs, elif_condition, hb, Bool.false_eq_true, if_false]
        simpa using ih

/-- C3: in a conditional chain at most one branch returns true, decided
first-match-wins: on a matched chain `elif_condition` returns false with
an empty evaluation trace (its condition is not executed) and
`else_condition` returns false; on an unmatched chain `elif_condition`
evaluates its condition and `else_condition` returns true; over a whole
if/elif chain the branches return true at most once. -/
theorem conditional_chain_first_match_wins (evalCond : String → Bool)
    (expr first : String) (rest : List String) :
    (elif_condition evalCond expr ChainState.openMatched =
        Except.ok (false, ChainState.openMatched, [])) ∧
    (else_condition ChainState.openMatched =
        Except.ok (false, ChainState.openMatched)) ∧
    (elif_condition evalCond expr ChainState.openUnmatched =
        Except.ok (evalCond expr,
          if evalCond expr then ChainState.openMatched else ChainState.openUnmatched,
          [expr])) ∧
    (else_condition ChainState.openUnmatched =
        Except.ok (true, ChainState.openMatched)) ∧
    (runChain evalCond first rest).1.count true ≤ 1 := by
  refine ⟨rfl, rfl, rfl, rfl, ?_⟩
  unfold runChain if_condition
  by_cases hb : evalCond first = true
  · simp [hb, runElifs_matched, count_true_replicate_false]
  · simp only [hb, Bool.false_eq_true, if_false]
    simpa using runElifs_unmatched_count evalCond rest

/-- C6 (amended): with capture requested and the launch completing, the
payload is the standard output with a single trailing newline (if present)
removed; that trim is a no-op on any string that does not end in a
newline. -/
theorem cmd_capture_trims_single_newline (launch : String → LaunchOutcome)
    (st : ExecutorState) (call : CmdCall) (processCwd : String)
    (hem : st.emulate = false) (hr : (launch call.command).raises = false)
    (hcap : call.captureOutput = true) (hchk : call.check = false) :
    (cmdRun launch st call processCwd).1 =
      Except.ok (CmdPayload.output (trimTrailingNewline (launch call.command).stdout)) ∧
    (∀ s : String, s.data.getLast? ≠ some '\n' → trimTrailingNewline s = s) := by
  constructor
  · simp [cmdRun, hem, hr, hcap, hchk]
  · intro s hs
    simp [trimTrailingNewline, hs]

/-- Witness for C6 at `echo hello`, whose output carries one newline. -/
theorem cmd_capture_trims_single_newline_witness :
    (cmdRun (fun _ => ⟨false, "", 0, "hello\n"⟩) ⟨false, 0⟩
        ⟨"echo hello", true, none, false⟩ "/w").1 =
      Except.ok (CmdPayload.output "hello") ∧
    trimTrailingNewline "hello" = "hello" := by
  have h := cmd_capture_trims_single_newline (fun _ => ⟨false, "", 0, "hello\n"⟩)
    ⟨false, 0⟩ ⟨"echo hello", true, none, false⟩ "/w" rfl rfl rfl rfl
  refine ⟨?_, h.2 "hello" (by decide)⟩
  rw [h.1]
  rfl

/-- Counterexample to C6 as stated: removing a single trailing newline is
not idempotent — on the string of one `a` and two newlines a second trim
still changes the result, so trimming an already-trimmed string is not
always a no-op. -/
theorem trim_not_idempotent_on_double_newline :
    trimTrailingNewline (trimTrailingNewline "a\n\n") ≠ trimTrailingNewline "a\n\n" := by
  decide

end Basher

namespace Basher

/-- A safe character is none of the characters the word splitter treats
specially outside quotes. -/
theorem isSafeChar_not_special {c : Char} (h : isSafeChar c = true) :
    c ≠ ' ' ∧ c ≠ '\t' ∧ c ≠ '\n' ∧ c ≠ '\x27' ∧ c ≠ '"' ∧ c ≠ '\\' := by
  refine ⟨?_, ?_, ?_, ?_, ?_, ?_⟩ <;> rintro rfl <;> exact absurd h (by decide)

/-- Splitting a wholly safe suffix accumulates it into the current word. -/
theorem posixSplitAux_safe (cs : List Char) (acc : List Char)
    (h : cs.all isSafeChar = true) :
    posixSplitAux cs QMode.normal acc true = some [acc.reverse ++ cs] := by
  induction cs generalizing acc with
  | nil => simp [posixSplitAux]
  | cons c rest ih =>
      rw [List.all_cons, Bool.and_eq_true] at h
      obtain ⟨h1, h2, h3, h4, h5, h6⟩ := isSafeChar_not_special h.1
      rw [show posixSplitAux (c :: rest) QMode.normal acc true =
            posixSplitAux rest QMode.normal (c :: acc) true by
          simp [posixSplitAux, h1, h2, h3, h4, h5, h6]]
      rw [ih (c :: acc) h.2]
      simp

/-- Inside single quotes, the escaped form of a single quote — quote,
double-quote, quote, double-quote, quote — contributes one literal single
quote to the current word and returns to single-quote mode. -/
theorem posixSplitAux_escaped_quote (l acc : List Char) :
    posixSplitAux ('\x27' :: '"' :: '\x27' :: '"' :: '\x27' :: l)
        QMode.single acc true =
      posixSplitAux l QMode.single ('\x27' :: acc) true := by
  simp [posixSplitAux]

/-- Splitting the escaped body of a quoted string, followed by the closing
quote, yields exactly the original characters appended to the current
word. -/
theorem posixSplitAux_quoted (cs : List Char) : ∀ acc : List Char,
    posixSplitAux (cs.flatMap quoteEscChar ++ ['\x27']) QMode.single acc true =
      some [acc.reverse ++ cs] := by
  induction cs with
  | nil => intro acc; simp [posixSplitAux]
  | cons c rest ih =>
      intro acc
      by_cases hc : c = '\x27'
      · subst hc
        rw [show ('\x27' :: rest).flatMap quoteEscChar ++ ['\x27'] =
              '\x27' :: '"' :: '\x27' :: '"' :: '\x27' ::
                (rest.flatMap quoteEscChar ++ ['\x27']) by
            simp [quoteEscChar]]
        rw [posixSplitAux_escaped_quote, ih ('\x27' :: acc)]
        simp
      · rw [show (c :: rest).flatMap quoteEscChar ++ ['\x27'] =
              c :: (rest.flatMap quoteEscChar ++ ['\x27']) by
            simp [quoteEscChar, hc]]
        rw [show posixSplitAux (c :: (rest.flatMap quoteEscChar ++ ['\x27']))
              QMode.single acc true =
            posixSplitAux (rest.flatMap quoteEscChar ++ ['\x27'])
              QMode.single (c :: acc) true by
          simp [posixSplitAux, hc]]
        rw [ih (c :: acc)]
        simp

/-- C8: for every string, the shell-quoting utility produces a command-line
fragment that POSIX word-splitting reads back as exactly the one original
word — quoted values cannot inject extra words into a constructed
command line. -/
theorem quote_roundtrip (s : String) : posixSplitFields (quote s) = some [s] := by
  rcases s with ⟨data⟩
  show (posixSplitAux (quoteData data) QMode.normal [] false).map _ = _
  by_cases hempty : data = []
  · subst hempty; rfl
  · by_cases hsafe : data.all isSafeChar = true
    · obtain ⟨c, rest, rfl⟩ := List.exists_cons_of_ne_nil hempty
      rw [show quoteData (c :: rest) = c :: rest by
        simp [quoteData, hsafe]]
      rw [List.all_cons, Bool.and_eq_true] at hsafe
      obtain ⟨h1, h2, h3, h4, h5, h6⟩ := isSafeChar_not_special hsafe.1
      rw [show posixSplitAux (c :: rest) QMode.normal [] false =
            posixSplitAux rest QMode.normal [c] true by
          simp [posixSplitAux, h1, h2, h3, h4, h5, h6]]
      rw [posixSplitAux_safe rest [c] hsafe.2]
      rfl
    · rw [show quoteData data =
            '\x27' :: (data.flatMap quoteEscChar ++ ['\x27']) by
          simp [quoteData, hempty, hsafe]]
      rw [show posixSplitAux ('\x27' :: (data.flatMap quoteEscChar ++ ['\x27']))
            QMode.normal [] false =
          posixSplitAux (data.flatMap quoteEscChar ++ ['\x27'])
            QMode.single [] true by
        simp [posixSplitAux]]
      rw [posixSplitAux_quoted data []]
      rfl

end Basher
